import Mathlib

/-!
Verification of the tile-window / tile-buffer manager (`tilewindow/tiler.py`).

The geometry tracker (`TileWindow`), the tiler (`Tiler` with its tile cache,
buffer image and job list) and the job marshal (`_TileJobMarsher`) are embedded
shallowly: Python integers become `Int`, the tile dictionary becomes an
association list, the `PIL` buffer image is modelled by its size together with
the ordered list of paste operations applied to it, and the job queue is the
internal list of needed tiles popped from the back.  Python `math.floor(a / b)`
and `a // b` for a positive divisor `b` are `Int` division `a / b` (Euclidean
division, which rounds toward negative infinity for positive divisors), and
`math.ceil(a / b)` is `ceilDiv`.
-/

/-- Ceiling division, modelling Python `math.ceil(a / b)` for integers. -/
def ceilDiv (a b : Int) : Int := -((-a) / b)

/-- A pixel rectangle `(xmin, ymin, xmax, ymax)`, half-open. -/
structure Rect where
  xmin : Int
  ymin : Int
  xmax : Int
  ymax : Int
deriving DecidableEq, Repr

/-- Image bounds: each of the four bounds may be absent (`None` in the source). -/
structure OptBounds where
  xmin : Option Int
  ymin : Option Int
  xmax : Option Int
  ymax : Option Int
deriving DecidableEq, Repr

/-- State of the geometry tracker, class `TileWindow` of `tilewindow/tiler.py`. -/
structure TileWindow where
  tile_width : Int
  tile_height : Int
  image_bounds : OptBounds
  window : Rect
  border : Int
  buffer_extent : Rect
deriving DecidableEq, Repr

/-- Clamp a lower bound against an optional image bound:
`if bound is not None: v = max(v, bound)`. -/
def clampMin : Option Int → Int → Int
  | some b, v => max v b
  | none, v => v

/-- Clamp an upper bound against an optional image bound:
`if bound is not None: v = min(v, bound)`. -/
def clampMax : Option Int → Int → Int
  | some b, v => min v b
  | none, v => v

/-- The property `TileWindow.needed_buffer_extent` (tiler.py lines 152-173). -/
def TileWindow.needed_buffer_extent (s : TileWindow) : Rect :=
  let xmin := (s.window.xmin / s.tile_width - s.border) * s.tile_width
  let ymin := (s.window.ymin / s.tile_height - s.border) * s.tile_height
  let xmax := (ceilDiv s.window.xmax s.tile_width + s.border) * s.tile_width
  let ymax := (ceilDiv s.window.ymax s.tile_height + s.border) * s.tile_height
  { xmin := clampMin s.image_bounds.xmin xmin
    ymin := clampMin s.image_bounds.ymin ymin
    xmax := clampMax s.image_bounds.xmax xmax
    ymax := clampMax s.image_bounds.ymax ymax }

/-- The staged computation exactly as the spec words it: floor the window min
corner and ceil its max corner to tile units, expand outward by `border` tiles,
convert back to pixels, then clamp each bound against a present image bound.
Used only to compare with `TileWindow.needed_buffer_extent`. -/
def TileWindow.neededBufferExtentSpec (s : TileWindow) : Rect :=
  let tileMinX := s.window.xmin / s.tile_width
  let tileMinY := s.window.ymin / s.tile_height
  let tileMaxX := ceilDiv s.window.xmax s.tile_width
  let tileMaxY := ceilDiv s.window.ymax s.tile_height
  let expMinX := tileMinX - s.border
  let expMinY := tileMinY - s.border
  let expMaxX := tileMaxX + s.border
  let expMaxY := tileMaxY + s.border
  let pix : Rect := { xmin := expMinX * s.tile_width, ymin := expMinY * s.tile_height
                      xmax := expMaxX * s.tile_width, ymax := expMaxY * s.tile_height }
  { xmin := clampMin s.image_bounds.xmin pix.xmin
    ymin := clampMin s.image_bounds.ymin pix.ymin
    xmax := clampMax s.image_bounds.xmax pix.xmax
    ymax := clampMax s.image_bounds.ymax pix.ymax }

/-- The `image_bounds` setter (tiler.py lines 67-78): accepts the tuple iff
every present bound is an exact multiple of the tile dimension on its axis;
on failure the stored value is unchanged and `ValueError` is raised.  The
second component is the raised error, if any. -/
def TileWindow.set_image_bounds (s : TileWindow) (v : OptBounds) :
    TileWindow × Option String :=
  if (∀ x ∈ v.xmin, x % s.tile_width = 0) ∧ (∀ y ∈ v.ymin, y % s.tile_height = 0) ∧
     (∀ x ∈ v.xmax, x % s.tile_width = 0) ∧ (∀ y ∈ v.ymax, y % s.tile_height = 0) then
    ({ s with image_bounds := v }, none)
  else
    (s, some "ValueError")

/-- The `border` setter (tiler.py lines 112-119): accepts iff `v > 0`;
on failure the stored value is unchanged and `ValueError` is raised. -/
def TileWindow.set_border (s : TileWindow) (v : Int) : TileWindow × Option String :=
  if v > 0 then ({ s with border := v }, none) else (s, some "ValueError")

/-- The `window` setter (tiler.py lines 95-102): accepts any 4-tuple of ints. -/
def TileWindow.set_window (s : TileWindow) (v : Rect) : TileWindow :=
  { s with window := v }

/-- Present image bounds are exact multiples of the tile dimension on their
axis; the `image_bounds` setter enforces this. -/
def OptBounds.aligned (b : OptBounds) (tw th : Int) : Prop :=
  (∀ x ∈ b.xmin, tw ∣ x) ∧ (∀ y ∈ b.ymin, th ∣ y) ∧
  (∀ x ∈ b.xmax, tw ∣ x) ∧ (∀ y ∈ b.ymax, th ∣ y)

instance (b : OptBounds) (tw th : Int) : Decidable (b.aligned tw th) := by
  unfold OptBounds.aligned; infer_instance

/-- Tile coordinates `(tx, ty)`. -/
abbrev Coord := Int × Int

/-- Tile images are opaque for the model; only identity matters. -/
abbrev Tile := Nat

/-- The `PIL.Image` buffer, modelled by its allocated size and the ordered list
of paste operations `(destination offset, tile)` applied to it. -/
structure BufferImage where
  width : Int
  height : Int
  pastes : List (Coord × Tile)
deriving DecidableEq, Repr

/-- Lookup in the tile dict, modelling Python `d[k]` / `k in d`. -/
def dictFind : List (Coord × Tile) → Coord → Option Tile
  | [], _ => none
  | (k, v) :: l, c => if c = k then some v else dictFind l c

/-- Insert with overwrite, modelling Python `d[k] = v` on the tile dict. -/
def dictInsert (k : Coord) (v : Tile) (l : List (Coord × Tile)) : List (Coord × Tile) :=
  (k, v) :: l.filter (fun p => p.1 ≠ k)

/-- State of class `Tiler` (tiler.py lines 176-309) together with the internal
list of its `_TileJobMarsher` (lines 312-337). -/
structure Tiler where
  tw : TileWindow
  tiles : List (Coord × Tile)
  image : BufferImage
  needed_tiles : List Coord
  has_redrawer : Bool
deriving DecidableEq, Repr

/-- `Tiler.__init__` (lines 187-196): window and buffer extent are re-set to
`(0,0,0,0)`, the cache and the job list start empty, no redrawer is set. -/
def Tiler.init (tilewidth : Int) (tileheight : Option Int) : Tiler :=
  let th := match tileheight with
    | none => tilewidth
    | some h => h
  { tw := { tile_width := tilewidth, tile_height := th
            image_bounds := ⟨none, none, none, none⟩
            window := ⟨0, 0, 0, 0⟩, border := 1, buffer_extent := ⟨0, 0, 0, 0⟩ }
    tiles := [], image := ⟨0, 0, []⟩, needed_tiles := [], has_redrawer := false }

/-- Result of an update: the new state, the job list handed to
`set_needed_tiles` (if any), and whether the redraw sink was invoked. -/
structure UpdateResult where
  state : Tiler
  jobs : Option (List Coord)
  redrawn : Bool
deriving DecidableEq, Repr

/-- Python `range(n)` as a list of integers. -/
def rangeInt (n : Int) : List Int := (List.range n.toNat).map Int.ofNat

/-- The needed extent converted to tile space by floor division (lines 218-219). -/
def Tiler.needTileSpace (s : Tiler) (need : Rect) : Rect :=
  ⟨need.xmin / s.tw.tile_width, need.ymin / s.tw.tile_height,
   need.xmax / s.tw.tile_width, need.ymax / s.tw.tile_height⟩

/-- The double loop of `_update` (lines 228-237) visits cell offsets `(x, y)`
row-major: `y` outer over the tile-space height, `x` inner over the width. -/
def cellList (nts : Rect) : List Coord :=
  (rangeInt (nts.ymax - nts.ymin)).flatMap (fun y =>
    (rangeInt (nts.xmax - nts.xmin)).map (fun x => (x, y)))

/-- The pastes of cached tiles into the fresh buffer image (line 235). -/
def Tiler.reusedPastes (s : Tiler) (nts : Rect) : List (Coord × Tile) :=
  (cellList nts).filterMap (fun c =>
    match dictFind s.tiles (c.1 + nts.xmin, c.2 + nts.ymin) with
    | some t => some ((c.1 * s.tw.tile_width, c.2 * s.tw.tile_height), t)
    | none => none)

/-- The `tiles_needed` list built by `_update` (line 237): coordinates in the
needed tile range that are absent from the cache, in row-major order. -/
def Tiler.tilesNeededList (s : Tiler) (nts : Rect) : List Coord :=
  (cellList nts).filterMap (fun c =>
    if (dictFind s.tiles (c.1 + nts.xmin, c.2 + nts.ymin)).isSome then none
    else some (c.1 + nts.xmin, c.2 + nts.ymin))

/-- Eviction (lines 240-244): delete every cache key outside the needed range. -/
def evict (tiles : List (Coord × Tile)) (nts : Rect) : List (Coord × Tile) :=
  tiles.filter (fun p => decide (nts.xmin ≤ p.1.1 ∧ p.1.1 < nts.xmax ∧
                                 nts.ymin ≤ p.1.2 ∧ p.1.2 < nts.ymax))

/-- `Tiler._update` (tiler.py lines 213-248): if the needed extent equals the
current buffer extent, return immediately; otherwise rebuild the buffer image
from cached tiles, evict stale cache entries, install the new extent, hand the
missing coordinates to the marshal and call `_redraw` (which notifies the sink
iff a redrawer is set). -/
def Tiler.reconcile (s : Tiler) : UpdateResult :=
  let need := s.tw.needed_buffer_extent
  if need = s.tw.buffer_extent then ⟨s, none, false⟩
  else
    let nts := s.needTileSpace need
    let newImage : BufferImage :=
      ⟨max 0 (need.xmax - need.xmin), max 0 (need.ymax - need.ymin), s.reusedPastes nts⟩
    let jobs := s.tilesNeededList nts
    ⟨{ s with tw := { s.tw with buffer_extent := need }
              tiles := evict s.tiles nts
              image := newImage
              needed_tiles := jobs },
     some jobs, s.has_redrawer⟩

/-- `Tiler.update` (tiler.py lines 198-211): the location is added to the min
corner of the current buffer extent, a missing size reuses the current window
size, the window is set and `_update` runs. -/
def Tiler.update (s : Tiler) (location : Int × Int) (size : Option (Int × Int)) :
    UpdateResult :=
  let x := s.tw.buffer_extent.xmin + location.1
  let y := s.tw.buffer_extent.ymin + location.2
  let sz := match size with
    | none => (s.tw.window.xmax - s.tw.window.xmin, s.tw.window.ymax - s.tw.window.ymin)
    | some v => v
  let s1 : Tiler := { s with tw := { s.tw with window := ⟨x, y, x + sz.1, y + sz.2⟩ } }
  s1.reconcile

/-- Result of depositing a tile: the new state, whether the redraw sink was
notified, and the uncaught exception if any (`new_tile` dereferences a missing
redrawer, raising `AttributeError`, after the state was already mutated). -/
structure DepositResult where
  state : Tiler
  notified : Bool
  error : Option String
deriving DecidableEq, Repr

/-- The paste-in-place condition of `new_tile` (lines 268-270): the tile
rectangle of `(tx, ty)` lies fully inside the current buffer extent. -/
def Tiler.tileInExtent (s : Tiler) (tx ty : Int) : Prop :=
  tx * s.tw.tile_width - s.tw.buffer_extent.xmin ≥ 0 ∧
  ty * s.tw.tile_height - s.tw.buffer_extent.ymin ≥ 0 ∧
  tx * s.tw.tile_width + s.tw.tile_width ≤ s.tw.buffer_extent.xmax ∧
  ty * s.tw.tile_height + s.tw.tile_height ≤ s.tw.buffer_extent.ymax

instance (s : Tiler) (tx ty : Int) : Decidable (s.tileInExtent tx ty) := by
  unfold Tiler.tileInExtent; infer_instance

/-- `Tiler.new_tile` (tiler.py lines 258-274): a `None` tile is dropped;
otherwise the tile is stored in the cache (overwriting), and if its rectangle
lies inside the current buffer extent it is pasted into the live image and the
redrawer is notified (raising `AttributeError` when no redrawer is set). -/
def Tiler.new_tile (s : Tiler) (tx ty : Int) (tile : Option Tile) : DepositResult :=
  match tile with
  | none => ⟨s, false, none⟩
  | some t =>
    let tiles1 := dictInsert (tx, ty) t s.tiles
    let xdest := tx * s.tw.tile_width - s.tw.buffer_extent.xmin
    let ydest := ty * s.tw.tile_height - s.tw.buffer_extent.ymin
    if s.tileInExtent tx ty then
      let s1 : Tiler := { s with tiles := tiles1
                                 image := { s.image with
                                   pastes := s.image.pastes ++ [((xdest, ydest), t)] } }
      if s.has_redrawer then ⟨s1, true, none⟩
      else ⟨s1, false, some "AttributeError"⟩
    else ⟨{ s with tiles := tiles1 }, false, none⟩

/-- One `get` on the marshal (tiler.py lines 325-337): pop the last element of
the needed list; `none` models raising `queue.Empty` after the timeout. -/
def marsherGet (l : List Coord) : Option (Coord × List Coord) :=
  match l.getLast? with
  | none => none
  | some c => some (c, l.dropLast)

/-- Repeatedly `get` until `Empty`, returning the delivered coordinates in
order together with the remaining list; fuelled by the list length. -/
def marsherDrain : Nat → List Coord → List Coord × List Coord
  | 0, l => ([], l)
  | fuel + 1, l =>
    match marsherGet l with
    | none => ([], l)
    | some (c, l1) =>
      let r := marsherDrain fuel l1
      (c :: r.1, r.2)

/-- The cache invariant claimed by the spec: every cached coordinate has its
tile rectangle fully inside the current buffer extent. -/
def Tiler.cacheInvariant (s : Tiler) : Prop :=
  ∀ p ∈ s.tiles, s.tileInExtent p.1.1 p.1.2

instance (s : Tiler) : Decidable (s.cacheInvariant) := by
  unfold Tiler.cacheInvariant; infer_instance

/-! Helper lemmas -/

theorem le_ceilDiv_mul (a : Int) {b : Int} (hb : b ≠ 0) : a ≤ ceilDiv a b * b := by
  unfold ceilDiv
  have h := Int.ediv_mul_le (-a) hb
  rw [neg_mul]
  linarith

theorem clampMin_dvd {d : Int} {o : Option Int} {u : Int}
    (hu : d ∣ u) (ho : ∀ x ∈ o, d ∣ x) : d ∣ clampMin o u := by
  cases o with
  | none => exact hu
  | some b =>
    show d ∣ max u b
    rcases max_choice u b with h | h <;> rw [h]
    · exact hu
    · exact ho b rfl

theorem clampMax_dvd {d : Int} {o : Option Int} {u : Int}
    (hu : d ∣ u) (ho : ∀ x ∈ o, d ∣ x) : d ∣ clampMax o u := by
  cases o with
  | none => exact hu
  | some b =>
    show d ∣ min u b
    rcases min_choice u b with h | h <;> rw [h]
    · exact hu
    · exact ho b rfl

theorem clampMin_cases (o : Option Int) (u : Int) :
    clampMin o u = u ∨ o = some (clampMin o u) := by
  cases o with
  | none => exact Or.inl rfl
  | some b =>
    show max u b = u ∨ some b = some (max u b)
    rcases max_choice u b with h | h <;> rw [h]
    · exact Or.inl rfl
    · exact Or.inr rfl

theorem clampMax_cases (o : Option Int) (u : Int) :
    clampMax o u = u ∨ o = some (clampMax o u) := by
  cases o with
  | none => exact Or.inl rfl
  | some b =>
    show min u b = u ∨ some b = some (min u b)
    rcases min_choice u b with h | h <;> rw [h]
    · exact Or.inl rfl
    · exact Or.inr rfl

/-- All four bounds of the needed buffer extent are multiples of the tile
dimension on their axis, provided the image bounds are aligned. -/
theorem needed_aligned (s : TileWindow)
    (hb : s.image_bounds.aligned s.tile_width s.tile_height) :
    s.tile_width ∣ s.needed_buffer_extent.xmin ∧
    s.tile_height ∣ s.needed_buffer_extent.ymin ∧
    s.tile_width ∣ s.needed_buffer_extent.xmax ∧
    s.tile_height ∣ s.needed_buffer_extent.ymax := by
  obtain ⟨h1, h2, h3, h4⟩ := hb
  refine ⟨clampMin_dvd (dvd_mul_left _ _) h1, clampMin_dvd (dvd_mul_left _ _) h2,
          clampMax_dvd (dvd_mul_left _ _) h3, clampMax_dvd (dvd_mul_left _ _) h4⟩

/-- The desirable property of `needed_buffer_extent` asserted by the spec:
every bound a multiple of its tile dimension; containment of the window
expanded by `border` tiles on each side, except on a bound that equals a
present image bound (clamping); and agreement with the staged formula the
spec describes. -/
def TileWindow.neededGood (s : TileWindow) : Prop :=
  (s.tile_width ∣ s.needed_buffer_extent.xmin ∧
   s.tile_height ∣ s.needed_buffer_extent.ymin ∧
   s.tile_width ∣ s.needed_buffer_extent.xmax ∧
   s.tile_height ∣ s.needed_buffer_extent.ymax) ∧
  (s.needed_buffer_extent.xmin ≤ s.window.xmin - s.border * s.tile_width ∨
     s.image_bounds.xmin = some s.needed_buffer_extent.xmin) ∧
  (s.needed_buffer_extent.ymin ≤ s.window.ymin - s.border * s.tile_height ∨
     s.image_bounds.ymin = some s.needed_buffer_extent.ymin) ∧
  (s.window.xmax + s.border * s.tile_width ≤ s.needed_buffer_extent.xmax ∨
     s.image_bounds.xmax = some s.needed_buffer_extent.xmax) ∧
  (s.window.ymax + s.border * s.tile_height ≤ s.needed_buffer_extent.ymax ∨
     s.image_bounds.ymax = some s.needed_buffer_extent.ymax) ∧
  s.needed_buffer_extent = s.neededBufferExtentSpec

/-- Claim C1: for every window, border and tile-aligned (possibly partially
absent) image bounds, `needed_buffer_extent` has every bound an exact multiple
of the corresponding tile dimension, contains the window expanded by at least
`border` tiles on each side except where a present image bound clamps it, and
equals the staged floor/ceil-expand-clamp formula of the spec. -/
theorem neededBufferExtent_correct_C1 (s : TileWindow)
    (hw : 0 < s.tile_width) (hh : 0 < s.tile_height)
    (hb : s.image_bounds.aligned s.tile_width s.tile_height) : s.neededGood := by
  refine ⟨needed_aligned s hb, ?_, ?_, ?_, ?_, rfl⟩
  · have e : s.needed_buffer_extent.xmin =
        clampMin s.image_bounds.xmin ((s.window.xmin / s.tile_width - s.border) * s.tile_width) := rfl
    rcases clampMin_cases s.image_bounds.xmin
      ((s.window.xmin / s.tile_width - s.border) * s.tile_width) with h | h
    · left
      rw [e, h, sub_mul]
      have := Int.ediv_mul_le s.window.xmin hw.ne'
      linarith
    · exact Or.inr (by rw [e]; exact h)
  · have e : s.needed_buffer_extent.ymin =
        clampMin s.image_bounds.ymin ((s.window.ymin / s.tile_height - s.border) * s.tile_height) := rfl
    rcases clampMin_cases s.image_bounds.ymin
      ((s.window.ymin / s.tile_height - s.border) * s.tile_height) with h | h
    · left
      rw [e, h, sub_mul]
      have := Int.ediv_mul_le s.window.ymin hh.ne'
      linarith
    · exact Or.inr (by rw [e]; exact h)
  · have e : s.needed_buffer_extent.xmax =
        clampMax s.image_bounds.xmax ((ceilDiv s.window.xmax s.tile_width + s.border) * s.tile_width) := rfl
    rcases clampMax_cases s.image_bounds.xmax
      ((ceilDiv s.window.xmax s.tile_width + s.border) * s.tile_width) with h | h
    · left
      rw [e, h, add_mul]
      have := le_ceilDiv_mul s.window.xmax hw.ne'
      linarith
    · exact Or.inr (by rw [e]; exact h)
  · have e : s.needed_buffer_extent.ymax =
        clampMax s.image_bounds.ymax ((ceilDiv s.window.ymax s.tile_height + s.border) * s.tile_height) := rfl
    rcases clampMax_cases s.image_bounds.ymax
      ((ceilDiv s.window.ymax s.tile_height + s.border) * s.tile_height) with h | h
    · left
      rw [e, h, add_mul]
      have := le_ceilDiv_mul s.window.ymax hh.ne'
      linarith
    · exact Or.inr (by rw [e]; exact h)

/-- The geometry tracker of Scenario A: tile size 10 by 20, border 1,
window `(-5, -19, 19, 21)`, no image bounds. -/
def twScenarioA : TileWindow :=
  { tile_width := 10, tile_height := 20, image_bounds := ⟨none, none, none, none⟩
    window := ⟨-5, -19, 19, 21⟩, border := 1, buffer_extent := ⟨0, 0, 0, 0⟩ }

/-- The same tracker with image bounds `(0, 0, 20, 40)` (Scenario B). -/
def twScenarioB : TileWindow :=
  { twScenarioA with image_bounds := ⟨some 0, some 0, some 20, some 40⟩ }

/-- Witness for C1 at the Scenario B tracker. -/
theorem neededBufferExtent_correct_C1_witness :
    0 < twScenarioB.tile_width ∧ 0 < twScenarioB.tile_height ∧
    twScenarioB.image_bounds.aligned twScenarioB.tile_width twScenarioB.tile_height ∧
    twScenarioB.neededGood :=
  ⟨by decide, by decide, by decide,
   neededBufferExtent_correct_C1 twScenarioB (by decide) (by decide) (by decide)⟩

/-- Claim C2: with tile size 10 by 20 and border 1 and window `(-5,-19,19,21)`,
the needed buffer extent is `(-20,-40,30,60)` without image bounds and clamps
to `(0,0,20,40)` under image bounds `(0,0,20,40)`. -/
theorem neededBufferExtent_scenarios_C2 :
    twScenarioA.needed_buffer_extent = ⟨-20, -40, 30, 60⟩ ∧
    twScenarioB.needed_buffer_extent = ⟨0, 0, 20, 40⟩ := by
  constructor <;> rfl

/-- The Scenario C tiler: `Tiler(20)`, so tile size 20 by 20. -/
def tilerC : Tiler := Tiler.init 20 none

/-- First update of Scenario C: `update((10,10),(35,78))`. -/
def updateC1 : UpdateResult := tilerC.update (10, 10) (some (35, 78))

/-- Second update of Scenario C: `update((50,50),(35,78))`. -/
def updateC2 : UpdateResult := updateC1.state.update (50, 50) (some (35, 78))

/-- Claim C3: from the fresh `Tiler(20)`, `update((10,10),(35,78))` yields
window `(10,10,45,88)` and buffer extent `(-20,-20,80,120)`; the subsequent
`update((50,50),(35,78))` yields window `(30,30,65,108)` and buffer extent
`(0,0,100,140)`, the location being relative to the buffer extent current at
the time of each call. -/
theorem tiler_update_scenarioC_C3 :
    updateC1.state.tw.window = ⟨10, 10, 45, 88⟩ ∧
    updateC1.state.tw.buffer_extent = ⟨-20, -20, 80, 120⟩ ∧
    updateC2.state.tw.window = ⟨30, 30, 65, 108⟩ ∧
    updateC2.state.tw.buffer_extent = ⟨0, 0, 100, 140⟩ := by
  exact ⟨by decide, by decide, by decide, by decide⟩

/-- The 5 by 7 grid of tile coordinates of Scenario D. -/
def gridD : List Coord :=
  ([-1, 0, 1, 2, 3] : List Int).flatMap (fun tx =>
    ([-1, 0, 1, 2, 3, 4, 5] : List Int).map (fun ty => (tx, ty)))

/-- Claim C4: after the first update of Scenario C, repeatedly taking pending
jobs delivers exactly the coordinates of the grid `[-1,3] × [-1,5]`, each
exactly once, and a further take then raises `Empty` (modelled by `none`). -/
theorem tiler_jobs_scenarioD_C4 :
    (marsherDrain updateC1.state.needed_tiles.length updateC1.state.needed_tiles).1.Perm gridD ∧
    (marsherDrain updateC1.state.needed_tiles.length updateC1.state.needed_tiles).1.Nodup ∧
    marsherGet (marsherDrain updateC1.state.needed_tiles.length updateC1.state.needed_tiles).2
      = none := by
  exact ⟨by decide, by decide, by decide⟩

/-- The early-return branch of `_update` (lines 214-216). -/
theorem reconcile_of_eq {s : Tiler} (h : s.tw.needed_buffer_extent = s.tw.buffer_extent) :
    s.reconcile = ⟨s, none, false⟩ := by
  unfold Tiler.reconcile
  rw [if_pos h]

/-- The rebuilding branch of `_update` (lines 218-248). -/
theorem reconcile_of_ne {s : Tiler} (h : ¬s.tw.needed_buffer_extent = s.tw.buffer_extent) :
    s.reconcile =
      ⟨{ s with tw := { s.tw with buffer_extent := s.tw.needed_buffer_extent }
                tiles := evict s.tiles (s.needTileSpace s.tw.needed_buffer_extent)
                image := ⟨max 0 (s.tw.needed_buffer_extent.xmax - s.tw.needed_buffer_extent.xmin),
                          max 0 (s.tw.needed_buffer_extent.ymax - s.tw.needed_buffer_extent.ymin),
                          s.reusedPastes (s.needTileSpace s.tw.needed_buffer_extent)⟩
                needed_tiles := s.tilesNeededList (s.needTileSpace s.tw.needed_buffer_extent) },
       some (s.tilesNeededList (s.needTileSpace s.tw.needed_buffer_extent)),
       s.has_redrawer⟩ := by
  unfold Tiler.reconcile
  rw [if_neg h]

/-- A reconcile that notifies the redraw sink has changed the buffer extent. -/
theorem reconcile_redrawn_changes (s : Tiler) :
    s.reconcile.redrawn = true → s.reconcile.state.tw.buffer_extent ≠ s.tw.buffer_extent := by
  by_cases h : s.tw.needed_buffer_extent = s.tw.buffer_extent
  · rw [reconcile_of_eq h]
    intro hr
    exact absurd hr Bool.false_ne_true
  · rw [reconcile_of_ne h]
    intro _
    exact h

/-- An update call that notifies the redraw sink has changed the buffer extent. -/
theorem update_redrawn_changes (s : Tiler) (loc : Int × Int) (sz : Option (Int × Int)) :
    (s.update loc sz).redrawn = true →
    (s.update loc sz).state.tw.buffer_extent ≠ s.tw.buffer_extent := by
  intro hr
  exact reconcile_redrawn_changes _ hr

/-- Run a list of `update` calls, counting redraw notifications (second
component) and actual buffer-extent changes (third component). -/
def runUpdates : Tiler → List ((Int × Int) × Option (Int × Int)) → Tiler × Nat × Nat
  | s, [] => (s, 0, 0)
  | s, c :: cs =>
    ((runUpdates (s.update c.1 c.2).state cs).1,
     (if (s.update c.1 c.2).redrawn then 1 else 0) +
       (runUpdates (s.update c.1 c.2).state cs).2.1,
     (if (s.update c.1 c.2).state.tw.buffer_extent = s.tw.buffer_extent then 0 else 1) +
       (runUpdates (s.update c.1 c.2).state cs).2.2)

/-- Over any sequence of update calls there are at most as many redraw
notifications as actual buffer-extent changes. -/
theorem countRedraws_le_changes :
    ∀ (calls : List ((Int × Int) × Option (Int × Int))) (s : Tiler),
      (runUpdates s calls).2.1 ≤ (runUpdates s calls).2.2 := by
  intro calls
  induction calls with
  | nil =>
    intro s
    simp [runUpdates]
  | cons c cs ih =>
    intro s
    have h := update_redrawn_changes s c.1 c.2
    have hrest := ih (s.update c.1 c.2).state
    simp only [runUpdates]
    by_cases hr : (s.update c.1 c.2).redrawn = true
    · rw [if_pos hr, if_neg (h hr)]
      omega
    · rw [if_neg hr]
      by_cases hb : (s.update c.1 c.2).state.tw.buffer_extent = s.tw.buffer_extent
      · rw [if_pos hb]
        omega
      · rw [if_neg hb]
        omega

/-- Claim C5: when the needed buffer extent equals the current one, `_update`
is a complete no-op (no job list is installed, the state with its cache and
buffer image is untouched, no redraw is emitted); and over any sequence of
`update` calls the number of redraw notifications is at most the number of
actual buffer-extent changes. -/
theorem reconcile_idempotent_C5 (s : Tiler) :
    (s.tw.needed_buffer_extent = s.tw.buffer_extent → s.reconcile = ⟨s, none, false⟩) ∧
    ∀ calls : List ((Int × Int) × Option (Int × Int)),
      (runUpdates s calls).2.1 ≤ (runUpdates s calls).2.2 :=
  ⟨reconcile_of_eq, fun calls => countRedraws_le_changes calls s⟩

/-- Witness for C5 at the state after the first Scenario C update, whose
needed extent equals its buffer extent. -/
theorem reconcile_idempotent_C5_witness :
    updateC1.state.tw.needed_buffer_extent = updateC1.state.tw.buffer_extent ∧
    updateC1.state.reconcile = ⟨updateC1.state, none, false⟩ ∧
    (runUpdates updateC1.state [((30, 30), some (35, 78))]).2.1 ≤
      (runUpdates updateC1.state [((30, 30), some (35, 78))]).2.2 :=
  ⟨by decide, (reconcile_idempotent_C5 updateC1.state).1 (by decide),
   (reconcile_idempotent_C5 updateC1.state).2 _⟩

/-- A tile index lying in the tile-space range of an aligned pixel interval
has its pixel span inside that interval. -/
theorem tile_range_in_extent {w lo hi t : Int} (hw : 0 < w) (hlo : w ∣ lo) (hhi : w ∣ hi)
    (h1 : lo / w ≤ t) (h2 : t < hi / w) : lo ≤ t * w ∧ t * w + w ≤ hi := by
  have e1 : lo / w * w = lo := Int.ediv_mul_cancel hlo
  have e2 : hi / w * w = hi := Int.ediv_mul_cancel hhi
  constructor
  · have h := mul_le_mul_of_nonneg_right h1 hw.le
    rw [e1] at h
    exact h
  · have h3 : t + 1 ≤ hi / w := h2
    have h := mul_le_mul_of_nonneg_right h3 hw.le
    rw [e2] at h
    linarith [h]

/-- After a buffer-rebuilding `_update`, every surviving cache entry has its
tile rectangle inside the newly installed buffer extent. -/
theorem reconcile_changing_cacheOK (s : Tiler) (hw : 0 < s.tw.tile_width)
    (hh : 0 < s.tw.tile_height)
    (hb : s.tw.image_bounds.aligned s.tw.tile_width s.tw.tile_height)
    (hne : s.tw.needed_buffer_extent ≠ s.tw.buffer_extent) :
    s.reconcile.state.cacheInvariant := by
  rw [reconcile_of_ne hne]
  intro p hp
  have hp1 : p ∈ (s.tiles.filter (fun q => decide
      ((s.needTileSpace s.tw.needed_buffer_extent).xmin ≤ q.1.1 ∧
       q.1.1 < (s.needTileSpace s.tw.needed_buffer_extent).xmax ∧
       (s.needTileSpace s.tw.needed_buffer_extent).ymin ≤ q.1.2 ∧
       q.1.2 < (s.needTileSpace s.tw.needed_buffer_extent).ymax))) := hp
  have hc := (List.mem_filter.mp hp1).2
  simp only [decide_eq_true_eq] at hc
  obtain ⟨c1, c2, c3, c4⟩ := hc
  obtain ⟨hd1, hd2, hd3, hd4⟩ := needed_aligned s.tw hb
  have hx := tile_range_in_extent hw hd1 hd3 c1 c2
  have hy := tile_range_in_extent hh hd2 hd4 c3 c4
  show p.1.1 * s.tw.tile_width - s.tw.needed_buffer_extent.xmin ≥ 0 ∧
       p.1.2 * s.tw.tile_height - s.tw.needed_buffer_extent.ymin ≥ 0 ∧
       p.1.1 * s.tw.tile_width + s.tw.tile_width ≤ s.tw.needed_buffer_extent.xmax ∧
       p.1.2 * s.tw.tile_height + s.tw.tile_height ≤ s.tw.needed_buffer_extent.ymax
  refine ⟨by linarith [hx.1], by linarith [hy.1], hx.2, hy.2⟩

/-- Claim C6 (amended): after any `_update` that actually installs a new
buffer extent, every coordinate remaining in the tile cache has its tile
rectangle inside the newly installed buffer extent.  (The unamended claim
fails on the early-return path: see the counterexample.) -/
theorem reconcile_evicts_C6 (s : Tiler) (hw : 0 < s.tw.tile_width)
    (hh : 0 < s.tw.tile_height)
    (hb : s.tw.image_bounds.aligned s.tw.tile_width s.tw.tile_height)
    (hne : s.tw.needed_buffer_extent ≠ s.tw.buffer_extent) :
    s.reconcile.state.cacheInvariant :=
  reconcile_changing_cacheOK s hw hh hb hne

/-- Witness for C6 at the fresh Scenario C tiler, whose first reconcile
changes the buffer extent. -/
theorem reconcile_evicts_C6_witness :
    0 < tilerC.tw.tile_width ∧ 0 < tilerC.tw.tile_height ∧
    tilerC.tw.image_bounds.aligned tilerC.tw.tile_width tilerC.tw.tile_height ∧
    tilerC.tw.needed_buffer_extent ≠ tilerC.tw.buffer_extent ∧
    tilerC.reconcile.state.cacheInvariant :=
  ⟨by decide, by decide, by decide, by decide,
   reconcile_evicts_C6 tilerC (by decide) (by decide) (by decide) (by decide)⟩

/-- A tile deposited late, for a viewport scrolled away from: its coordinate
`(50,50)` is far outside the buffer extent `(-20,-20,80,120)`. -/
def depositLate : DepositResult := updateC1.state.new_tile 50 50 (some 7)

/-- An update whose needed extent equals the current buffer extent, taken in
the state holding the late tile: `_update` returns early. -/
def noopUpdate : UpdateResult := depositLate.state.update (30, 30) (some (35, 78))

/-- Counterexample to C6 as stated: this update completes as a no-op (no job
list installed, buffer extent kept), yet the cache still holds the late tile
`(50,50)` whose rectangle lies outside the buffer extent. -/
theorem reconcile_evicts_C6_counterexample :
    noopUpdate.jobs = none ∧
    noopUpdate.state.tw.buffer_extent = ⟨-20, -20, 80, 120⟩ ∧
    ((50, 50), 7) ∈ noopUpdate.state.tiles ∧
    ¬noopUpdate.state.tileInExtent 50 50 :=
  ⟨by decide, by decide, by decide, by decide⟩

/-- The tiles stored by a successful deposit are always the overwrite
insertion, on both the in-extent and the out-of-extent path. -/
theorem new_tile_some_tiles (s : Tiler) (tx ty : Int) (t : Tile) :
    (s.new_tile tx ty (some t)).state.tiles = dictInsert (tx, ty) t s.tiles := by
  simp only [Tiler.new_tile]
  by_cases hin : s.tileInExtent tx ty
  · rw [if_pos hin]
    by_cases hr : s.has_redrawer = true
    · rw [if_pos hr]
    · rw [if_neg hr]
  · rw [if_neg hin]

/-- A deposit never changes the geometry state. -/
theorem new_tile_some_tw (s : Tiler) (tx ty : Int) (t : Tile) :
    (s.new_tile tx ty (some t)).state.tw = s.tw := by
  simp only [Tiler.new_tile]
  by_cases hin : s.tileInExtent tx ty
  · rw [if_pos hin]
    by_cases hr : s.has_redrawer = true
    · rw [if_pos hr]
    · rw [if_neg hr]
  · rw [if_neg hin]

/-- Membership in the overwrite insertion. -/
theorem mem_dictInsert {p : Coord × Tile} {k : Coord} {v : Tile} {l : List (Coord × Tile)}
    (h : p ∈ dictInsert k v l) : p = (k, v) ∨ p ∈ l := by
  rcases List.mem_cons.mp h with h1 | h1
  · exact Or.inl h1
  · exact Or.inr (List.mem_filter.mp h1).1

/-- The in-extent test only reads the geometry state. -/
theorem tileInExtent_of_tw_eq {s1 s2 : Tiler} (h : s1.tw = s2.tw) (tx ty : Int) :
    s1.tileInExtent tx ty ↔ s2.tileInExtent tx ty := by
  unfold Tiler.tileInExtent
  rw [h]

/-- Claim C8 (amended): the cache-within-buffer-extent invariant is preserved
by `_update`, by a deposit of a tile whose rectangle lies in the current
buffer extent, and by a failure deposit; a successful deposit outside the
current extent is nevertheless cached and breaks it (see counterexample). -/
theorem cacheInvariant_preserved_C8 (s : Tiler) (hw : 0 < s.tw.tile_width)
    (hh : 0 < s.tw.tile_height)
    (hb : s.tw.image_bounds.aligned s.tw.tile_width s.tw.tile_height)
    (hinv : s.cacheInvariant) :
    s.reconcile.state.cacheInvariant ∧
    (∀ (tx ty : Int) (t : Tile), s.tileInExtent tx ty →
      (s.new_tile tx ty (some t)).state.cacheInvariant) ∧
    (∀ tx ty : Int, (s.new_tile tx ty none).state.cacheInvariant) := by
  refine ⟨?_, ?_, ?_⟩
  · by_cases hne : s.tw.needed_buffer_extent = s.tw.buffer_extent
    · rw [reconcile_of_eq hne]
      exact hinv
    · exact reconcile_changing_cacheOK s hw hh hb hne
  · intro tx ty t hin p hp
    rw [new_tile_some_tiles s tx ty t] at hp
    rw [tileInExtent_of_tw_eq (new_tile_some_tw s tx ty t)]
    rcases mem_dictInsert hp with h1 | h1
    · rw [h1]
      exact hin
    · exact hinv p h1
  · intro tx ty
    exact hinv

/-- Counterexample to C8 as stated: the cache invariant holds after the first
Scenario C update, yet depositing the late tile `(50,50)` breaks it. -/
theorem cacheInvariant_C8_counterexample :
    updateC1.state.cacheInvariant ∧ ¬depositLate.state.cacheInvariant :=
  ⟨by decide, by decide⟩

/-- Witness for C8 at the state after the first Scenario C update. -/
theorem cacheInvariant_preserved_C8_witness :
    0 < updateC1.state.tw.tile_width ∧ 0 < updateC1.state.tw.tile_height ∧
    updateC1.state.tw.image_bounds.aligned updateC1.state.tw.tile_width
      updateC1.state.tw.tile_height ∧
    updateC1.state.cacheInvariant ∧
    (updateC1.state.reconcile.state.cacheInvariant ∧
     (∀ (tx ty : Int) (t : Tile), updateC1.state.tileInExtent tx ty →
       (updateC1.state.new_tile tx ty (some t)).state.cacheInvariant) ∧
     (∀ tx ty : Int, (updateC1.state.new_tile tx ty none).state.cacheInvariant)) :=
  ⟨by decide, by decide, by decide, by decide,
   cacheInvariant_preserved_C8 updateC1.state (by decide) (by decide) (by decide) (by decide)⟩

/-- Membership of Python `range(n)` translated to integers. -/
theorem mem_rangeInt {i n : Int} : i ∈ rangeInt n ↔ 0 ≤ i ∧ i < n := by
  unfold rangeInt
  simp only [List.mem_map, List.mem_range, Int.ofNat_eq_coe]
  constructor
  · rintro ⟨k, hk, rfl⟩
    omega
  · intro h
    exact ⟨i.toNat, by omega, by omega⟩

/-- Membership of the row-major cell enumeration. -/
theorem mem_cellList {x y : Int} {nts : Rect} :
    (x, y) ∈ cellList nts ↔
      0 ≤ x ∧ x < nts.xmax - nts.xmin ∧ 0 ≤ y ∧ y < nts.ymax - nts.ymin := by
  unfold cellList
  simp only [List.mem_flatMap, List.mem_map, mem_rangeInt, Prod.mk.injEq]
  constructor
  · rintro ⟨y1, hy, x1, hx, rfl, rfl⟩
    exact ⟨hx.1, hx.2, hy.1, hy.2⟩
  · rintro ⟨h1, h2, h3, h4⟩
    exact ⟨y, ⟨h3, h4⟩, x, ⟨h1, h2⟩, rfl, rfl⟩

/-- A coordinate is on the `tiles_needed` list exactly when it lies in the
needed tile range and is absent from the cache. -/
theorem mem_tilesNeededList {s : Tiler} {nts : Rect} {tx ty : Int} :
    (tx, ty) ∈ s.tilesNeededList nts ↔
      nts.xmin ≤ tx ∧ tx < nts.xmax ∧ nts.ymin ≤ ty ∧ ty < nts.ymax ∧
      dictFind s.tiles (tx, ty) = none := by
  unfold Tiler.tilesNeededList
  simp only [List.mem_filterMap]
  constructor
  · rintro ⟨⟨cx, cy⟩, hc, heq⟩
    rw [mem_cellList] at hc
    by_cases hl : (dictFind s.tiles (cx + nts.xmin, cy + nts.ymin)).isSome = true
    · rw [if_pos hl] at heq
      exact absurd heq (by simp)
    · rw [if_neg hl] at heq
      have hxy := Option.some.inj heq
      have hx : cx + nts.xmin = tx := congrArg Prod.fst hxy
      have hy : cy + nts.ymin = ty := congrArg Prod.snd hxy
      subst hx
      subst hy
      refine ⟨by omega, by omega, by omega, by omega, ?_⟩
      exact Option.not_isSome_iff_eq_none.mp hl
  · rintro ⟨h1, h2, h3, h4, h5⟩
    refine ⟨(tx - nts.xmin, ty - nts.ymin), ?_, ?_⟩
    · rw [mem_cellList]
      refine ⟨by omega, by omega, by omega, by omega⟩
    · have e : (tx - nts.xmin + nts.xmin, ty - nts.ymin + nts.ymin) = (tx, ty) := by
        rw [Int.sub_add_cancel, Int.sub_add_cancel]
      rw [e, if_neg (by simp [h5])]

/-- Looking up the freshly inserted key yields the inserted tile. -/
theorem dictFind_dictInsert_self (l : List (Coord × Tile)) (k : Coord) (v : Tile) :
    dictFind (dictInsert k v l) k = some v := by
  unfold dictInsert
  simp [dictFind]

/-- Filtering out a key leaves every other lookup unchanged. -/
theorem dictFind_filter_ne (l : List (Coord × Tile)) (k c : Coord) (h : c ≠ k) :
    dictFind (l.filter (fun p => p.1 ≠ k)) c = dictFind l c := by
  induction l with
  | nil => rfl
  | cons a tl ih =>
    obtain ⟨a1, a2⟩ := a
    rw [List.filter_cons]
    by_cases ha : a1 = k
    · have hd : ¬(decide ((a1, a2).1 ≠ k) = true) := by simp [ha]
      rw [if_neg hd, ih]
      have hca : ¬c = a1 := by rw [ha]; exact h
      simp only [dictFind, if_neg hca]
    · have hd : decide ((a1, a2).1 ≠ k) = true := by simp [ha]
      rw [if_pos hd]
      by_cases hc : c = a1
      · simp only [dictFind, if_pos hc]
      · simp only [dictFind, if_neg hc]
        exact ih

/-- Insertion leaves every other lookup unchanged. -/
theorem dictFind_dictInsert_ne (l : List (Coord × Tile)) (k : Coord) (v : Tile)
    (c : Coord) (h : c ≠ k) : dictFind (dictInsert k v l) c = dictFind l c := by
  unfold dictInsert
  simp only [dictFind, if_neg h]
  exact dictFind_filter_ne l k c h

/-- The deposit contract claimed by the spec for a tiler with a redraw sink:
a failure deposit is a complete no-op; a successful deposit raises nothing,
stores the tile under its coordinate overwriting any previous entry and
leaving all other coordinates untouched, notifies the sink exactly when the
tile rectangle lies in the current buffer extent, pastes into the live image
exactly in that case; and an absent coordinate inside the needed range of a
buffer-changing reconcile is re-requested on its job list. -/
def Tiler.newTileGood (s : Tiler) (tx ty : Int) : Prop :=
  (s.new_tile tx ty none = ⟨s, false, none⟩) ∧
  (∀ t : Tile,
    (s.new_tile tx ty (some t)).error = none ∧
    dictFind (s.new_tile tx ty (some t)).state.tiles (tx, ty) = some t ∧
    (∀ c : Coord, c ≠ (tx, ty) →
      dictFind (s.new_tile tx ty (some t)).state.tiles c = dictFind s.tiles c) ∧
    ((s.new_tile tx ty (some t)).notified = true ↔ s.tileInExtent tx ty) ∧
    (s.tileInExtent tx ty →
      (s.new_tile tx ty (some t)).state.image.pastes =
        s.image.pastes ++ [((tx * s.tw.tile_width - s.tw.buffer_extent.xmin,
                             ty * s.tw.tile_height - s.tw.buffer_extent.ymin), t)]) ∧
    (¬s.tileInExtent tx ty →
      (s.new_tile tx ty (some t)).state.image = s.image ∧
      (s.new_tile tx ty (some t)).notified = false)) ∧
  (s.tw.needed_buffer_extent ≠ s.tw.buffer_extent →
    dictFind s.tiles (tx, ty) = none →
    (s.needTileSpace s.tw.needed_buffer_extent).xmin ≤ tx →
    tx < (s.needTileSpace s.tw.needed_buffer_extent).xmax →
    (s.needTileSpace s.tw.needed_buffer_extent).ymin ≤ ty →
    ty < (s.needTileSpace s.tw.needed_buffer_extent).ymax →
    s.reconcile.jobs =
      some (s.tilesNeededList (s.needTileSpace s.tw.needed_buffer_extent)) ∧
    (tx, ty) ∈ s.tilesNeededList (s.needTileSpace s.tw.needed_buffer_extent))

/-- The in-extent deposit with a redrawer, in closed form. -/
theorem new_tile_some_in (s : Tiler) (tx ty : Int) (t : Tile)
    (hin : s.tileInExtent tx ty) (hr : s.has_redrawer = true) :
    s.new_tile tx ty (some t) =
      ⟨{ s with tiles := dictInsert (tx, ty) t s.tiles
                image := { s.image with pastes := s.image.pastes ++
                  [((tx * s.tw.tile_width - s.tw.buffer_extent.xmin,
                     ty * s.tw.tile_height - s.tw.buffer_extent.ymin), t)] } },
       true, none⟩ := by
  simp only [Tiler.new_tile]
  rw [if_pos hin, if_pos hr]

/-- The out-of-extent deposit, in closed form. -/
theorem new_tile_some_out (s : Tiler) (tx ty : Int) (t : Tile)
    (hin : ¬s.tileInExtent tx ty) :
    s.new_tile tx ty (some t) =
      ⟨{ s with tiles := dictInsert (tx, ty) t s.tiles }, false, none⟩ := by
  simp only [Tiler.new_tile]
  rw [if_neg hin]

/-- Claim C7: the deposit contract holds for every tiler with a redraw sink,
every coordinate and every tile. -/
theorem new_tile_behaviour_C7 (s : Tiler) (tx ty : Int)
    (hr : s.has_redrawer = true) : s.newTileGood tx ty := by
  refine ⟨rfl, ?_, ?_⟩
  · intro t
    by_cases hin : s.tileInExtent tx ty
    · rw [new_tile_some_in s tx ty t hin hr]
      refine ⟨rfl, dictFind_dictInsert_self _ _ _,
        fun c hc => dictFind_dictInsert_ne _ _ _ _ hc,
        ⟨fun _ => hin, fun _ => rfl⟩, fun _ => rfl, fun hnin => absurd hin hnin⟩
    · rw [new_tile_some_out s tx ty t hin]
      refine ⟨rfl, dictFind_dictInsert_self _ _ _,
        fun c hc => dictFind_dictInsert_ne _ _ _ _ hc,
        ⟨fun hf => absurd hf Bool.false_ne_true, fun hf => absurd hf hin⟩,
        fun hf => absurd hf hin, fun _ => ⟨rfl, rfl⟩⟩
  · intro hne h5 h1 h2 h3 h4
    constructor
    · rw [reconcile_of_ne hne]
    · exact mem_tilesNeededList.mpr ⟨h1, h2, h3, h4, h5⟩

/-- The Scenario C tiler after its first update, with a redraw sink attached. -/
def tilerR : Tiler := { updateC1.state with has_redrawer := true }

/-- Witness for C7 at the redrawer-attached tiler and coordinate `(0,0)`. -/
theorem new_tile_behaviour_C7_witness :
    tilerR.has_redrawer = true ∧ tilerR.newTileGood 0 0 :=
  ⟨rfl, new_tile_behaviour_C7 tilerR 0 0 rfl⟩

/-- Claim C9 (amended): setting image bounds fails exactly when some present
bound is not an exact multiple of the tile dimension on its axis (a resulting
min at or above max on a doubly-bounded axis is not checked); setting the
border fails exactly for values below 1; in each failing case the stored
state is unchanged. -/
theorem setter_validation_C9 (s : TileWindow) (v : OptBounds) (n : Int) :
    ((s.set_image_bounds v).2 = none ↔ v.aligned s.tile_width s.tile_height) ∧
    ((s.set_image_bounds v).2 ≠ none → (s.set_image_bounds v).1 = s) ∧
    ((s.set_border n).2 = none ↔ 1 ≤ n) ∧
    ((s.set_border n).2 ≠ none → (s.set_border n).1 = s) := by
  have halign : ((∀ x ∈ v.xmin, x % s.tile_width = 0) ∧
      (∀ y ∈ v.ymin, y % s.tile_height = 0) ∧
      (∀ x ∈ v.xmax, x % s.tile_width = 0) ∧
      (∀ y ∈ v.ymax, y % s.tile_height = 0)) ↔ v.aligned s.tile_width s.tile_height := by
    unfold OptBounds.aligned
    constructor
    · rintro ⟨h1, h2, h3, h4⟩
      exact ⟨fun x hx => Int.dvd_of_emod_eq_zero (h1 x hx),
             fun y hy => Int.dvd_of_emod_eq_zero (h2 y hy),
             fun x hx => Int.dvd_of_emod_eq_zero (h3 x hx),
             fun y hy => Int.dvd_of_emod_eq_zero (h4 y hy)⟩
    · rintro ⟨h1, h2, h3, h4⟩
      exact ⟨fun x hx => Int.emod_eq_zero_of_dvd (h1 x hx),
             fun y hy => Int.emod_eq_zero_of_dvd (h2 y hy),
             fun x hx => Int.emod_eq_zero_of_dvd (h3 x hx),
             fun y hy => Int.emod_eq_zero_of_dvd (h4 y hy)⟩
  refine ⟨?_, ?_, ?_, ?_⟩
  · unfold TileWindow.set_image_bounds
    by_cases h : (∀ x ∈ v.xmin, x % s.tile_width = 0) ∧
        (∀ y ∈ v.ymin, y % s.tile_height = 0) ∧
        (∀ x ∈ v.xmax, x % s.tile_width = 0) ∧ (∀ y ∈ v.ymax, y % s.tile_height = 0)
    · rw [if_pos h]
      simp only [iff_true_intro (halign.mp h), iff_true]
    · rw [if_neg h]
      constructor
      · intro hc
        exact absurd hc (by simp)
      · intro hc
        exact absurd (halign.mpr hc) h
  · unfold TileWindow.set_image_bounds
    by_cases h : (∀ x ∈ v.xmin, x % s.tile_width = 0) ∧
        (∀ y ∈ v.ymin, y % s.tile_height = 0) ∧
        (∀ x ∈ v.xmax, x % s.tile_width = 0) ∧ (∀ y ∈ v.ymax, y % s.tile_height = 0)
    · rw [if_pos h]
      intro hc
      exact absurd rfl hc
    · rw [if_neg h]
      intro _
      rfl
  · unfold TileWindow.set_border
    by_cases h : n > 0
    · rw [if_pos h]
      simp only [true_iff]
      omega
    · rw [if_neg h]
      constructor
      · intro hc
        exact absurd hc (by simp)
      · intro hc
        omega
  · unfold TileWindow.set_border
    by_cases h : n > 0
    · rw [if_pos h]
      intro hc
      exact absurd rfl hc
    · rw [if_neg h]
      intro _
      rfl

/-- Image bounds with both x-axis bounds present and min at or above max. -/
def boundsBad : OptBounds := ⟨some 20, some 0, some 0, some 40⟩

/-- Counterexample to C9 as stated: on the 10 by 20 tracker the setter accepts
`(20, 0, 0, 40)` without error and stores it, although the x-axis has both
bounds present with min 20 at or above max 0; no min-below-max validation is
performed. -/
theorem setter_validation_C9_counterexample :
    (twScenarioA.set_image_bounds boundsBad).2 = none ∧
    (twScenarioA.set_image_bounds boundsBad).1.image_bounds = boundsBad ∧
    boundsBad.xmin = some 20 ∧ boundsBad.xmax = some 0 :=
  ⟨by decide, by decide, rfl, rfl⟩

/-- Witness for C9 at the Scenario A tracker, the valid bounds of Scenario B
and border 0. -/
theorem setter_validation_C9_witness :
    ((twScenarioA.set_image_bounds ⟨some 0, some 0, some 20, some 40⟩).2 = none ↔
      OptBounds.aligned ⟨some 0, some 0, some 20, some 40⟩ twScenarioA.tile_width
        twScenarioA.tile_height) ∧
    ((twScenarioA.set_image_bounds ⟨some 0, some 0, some 20, some 40⟩).2 ≠ none →
      (twScenarioA.set_image_bounds ⟨some 0, some 0, some 20, some 40⟩).1 = twScenarioA) ∧
    ((twScenarioA.set_border 0).2 = none ↔ 1 ≤ (0 : Int)) ∧
    ((twScenarioA.set_border 0).2 ≠ none → (twScenarioA.set_border 0).1 = twScenarioA) :=
  setter_validation_C9 twScenarioA ⟨some 0, some 0, some 20, some 40⟩ 0

/-- The behaviour of depositing and reconciling without a redraw sink. -/
def Tiler.noRedrawerGood (s : Tiler) (tx ty : Int) (t : Tile) : Prop :=
  (s.tileInExtent tx ty → (s.new_tile tx ty (some t)).error = some "AttributeError") ∧
  (¬s.tileInExtent tx ty → (s.new_tile tx ty (some t)).error = none ∧
    dictFind (s.new_tile tx ty (some t)).state.tiles (tx, ty) = some t) ∧
  s.reconcile.redrawn = false

/-- The in-extent deposit without a redrawer, in closed form: the state is
mutated and then the missing redrawer raises `AttributeError`. -/
theorem new_tile_some_in_noredraw (s : Tiler) (tx ty : Int) (t : Tile)
    (hin : s.tileInExtent tx ty) (hr : s.has_redrawer = false) :
    s.new_tile tx ty (some t) =
      ⟨{ s with tiles := dictInsert (tx, ty) t s.tiles
                image := { s.image with pastes := s.image.pastes ++
                  [((tx * s.tw.tile_width - s.tw.buffer_extent.xmin,
                     ty * s.tw.tile_height - s.tw.buffer_extent.ymin), t)] } },
       false, some "AttributeError"⟩ := by
  simp only [Tiler.new_tile]
  rw [if_pos hin, if_neg (by rw [hr]; exact Bool.false_ne_true)]

/-- Claim C10: with no redraw sink set, an in-extent successful deposit raises
`AttributeError`, an out-of-extent successful deposit completes without error
and is still cached, and the reconcile redraw path (which checks for a missing
redrawer) completes without notifying. -/
theorem missing_redrawer_C10 (s : Tiler) (tx ty : Int) (t : Tile)
    (hr : s.has_redrawer = false) : s.noRedrawerGood tx ty t := by
  refine ⟨?_, ?_, ?_⟩
  · intro hin
    rw [new_tile_some_in_noredraw s tx ty t hin hr]
  · intro hin
    rw [new_tile_some_out s tx ty t hin]
    exact ⟨rfl, dictFind_dictInsert_self _ _ _⟩
  · by_cases hne : s.tw.needed_buffer_extent = s.tw.buffer_extent
    · rw [reconcile_of_eq hne]
    · rw [reconcile_of_ne hne]
      exact hr

/-- Witness for C10 at the Scenario C tiler after its first update (which has
no redrawer set), exercising both the in-extent coordinate `(0,0)`, which
raises, and the out-of-extent coordinate `(50,50)`, which does not. -/
theorem missing_redrawer_C10_witness :
    updateC1.state.has_redrawer = false ∧
    (updateC1.state.new_tile 0 0 (some 3)).error = some "AttributeError" ∧
    (updateC1.state.new_tile 50 50 (some 3)).error = none :=
  ⟨rfl, (missing_redrawer_C10 updateC1.state 0 0 3 rfl).1 (by decide),
   ((missing_redrawer_C10 updateC1.state 50 50 3 rfl).2.1 (by decide)).1⟩
